import Mathlib

/-!
Verification of the FormatFusion conversion core
(src/services/conversion_service.py) via a shallow embedding.

Image encoding is modelled with a size oracle: an `ImgCtx` carries the
current image dimensions together with a function giving the byte size of
the encoded file for any (width, height, quality-or-compression level),
plus the size of a default-settings save.  The search loops of
`_optimize_image_size` and `_aggressive_resize_for_size` are translated
directly; scale factors 0.5, 0.3, 0.2, 0.1, 0.05 are represented as the
exact rationals 1/2, 3/10, 1/5, 1/10, 1/20 with floor division, matching
Python's `int(img.width * scale)` up to double-precision rounding.
-/

/-- Output image formats, from models/file_info.py (ImageFormat). -/
inductive ImgFormat
  | jpeg
  | png
deriving DecidableEq

/-- Fuel-driven worker for `pyRangeDown`; mirrors Python `range` with a
negative step: elements are produced while `cur > stop`. -/
def pyRangeDownGo (stop : Int) (step : Nat) : Nat → Int → List Int
  | 0, _ => []
  | Nat.succ fuel, cur =>
      if stop < cur ∧ 0 < step then cur :: pyRangeDownGo stop step fuel (cur - step)
      else []

/-- Python `range(start, stop, -step)` for a positive `step`. -/
def pyRangeDown (start stop : Int) (step : Nat) : List Int :=
  pyRangeDownGo stop step ((start - stop).toNat + 1) start

/-- Quality or compression levels tried by the full-size sweep of
`_optimize_image_size`: `range(95, 4, -5)` for JPEG and
`range(9, -1, -1)` for PNG. -/
def fullLevels : ImgFormat → List Nat
  | ImgFormat.jpeg => (pyRangeDown 95 4 5).map Int.toNat
  | ImgFormat.png => (pyRangeDown 9 (-1) 1).map Int.toNat

/-- Levels tried at each scale by `_aggressive_resize_for_size`:
`range(85, 4, -10)` for JPEG and `range(9, -1, -2)` for PNG. -/
def aggrLevels : ImgFormat → List Nat
  | ImgFormat.jpeg => (pyRangeDown 85 4 10).map Int.toNat
  | ImgFormat.png => (pyRangeDown 9 (-1) 2).map Int.toNat

/-- Setting used by the forced final save when every attempt failed:
JPEG quality 5, PNG compression level 9. -/
def minimalLevel : ImgFormat → Nat
  | ImgFormat.jpeg => 5
  | ImgFormat.png => 9

/-- Scale factors [0.5, 0.3, 0.2, 0.1, 0.05] of
`_aggressive_resize_for_size`, as exact rationals (numerator, denominator). -/
def scaleFactors : List (Nat × Nat) :=
  [(1, 2), (3, 10), (1, 5), (1, 10), (1, 20)]

/-- New dimensions `(int(w * scale), int(h * scale))` for a rational scale. -/
def scaleDims (w h : Nat) (s : Nat × Nat) : Nat × Nat :=
  (w * s.1 / s.2, h * s.1 / s.2)

/-- Size oracle for one source image as handed to `_optimize_image_size`:
current dimensions, encoded byte size at any (width, height, level), and
the byte size of a default-settings save at the current dimensions. -/
structure ImgCtx where
  w : Nat
  h : Nat
  size : Nat → Nat → Nat → Nat
  defaultSize : Nat

/-- Description of the file written by the image path: dimensions, the
quality/compression level used (`none` for a default-settings save), and
its byte size. -/
structure SavedFile where
  w : Nat
  h : Nat
  level : Option Nat
  bytes : Nat
deriving DecidableEq

/-- Byte size of the encoding described by a (width, height, level) triple. -/
def sizeTriple (ctx : ImgCtx) (t : Nat × Nat × Nat) : Nat :=
  ctx.size t.1 t.2.1 t.2.2

/-- First element of the list whose measured size fits the budget; this is
the accept-first-fit pattern shared by every sweep in the source. -/
def firstFit {α : Type} (meas : α → Nat) (budget : Nat) : List α → Option α
  | [] => none
  | x :: xs => if meas x ≤ budget then some x else firstFit meas budget xs

/-- File written by the terminal branch of `_aggressive_resize_for_size`:
save at the original dimensions with the most degraded setting. -/
def minimalSave (fmt : ImgFormat) (ctx : ImgCtx) : SavedFile :=
  ⟨ctx.w, ctx.h, some (minimalLevel fmt), ctx.size ctx.w ctx.h (minimalLevel fmt)⟩

/-- Scale loop of `_aggressive_resize_for_size`: for each scale, stop (and
fall through to the minimal save) when a dimension drops below 10, else
sweep the aggressive levels at the scaled dimensions and accept the first
fit; when the scales are exhausted, fall through to the minimal save. -/
def aggrGo (fmt : ImgFormat) (ctx : ImgCtx) (budget : Nat) : List (Nat × Nat) → SavedFile
  | [] => minimalSave fmt ctx
  | s :: rest =>
      if (scaleDims ctx.w ctx.h s).1 < 10 ∨ (scaleDims ctx.w ctx.h s).2 < 10 then
        minimalSave fmt ctx
      else
        match firstFit (ctx.size (scaleDims ctx.w ctx.h s).1 (scaleDims ctx.w ctx.h s).2)
            budget (aggrLevels fmt) with
        | some q =>
            ⟨(scaleDims ctx.w ctx.h s).1, (scaleDims ctx.w ctx.h s).2, some q,
              ctx.size (scaleDims ctx.w ctx.h s).1 (scaleDims ctx.w ctx.h s).2 q⟩
        | none => aggrGo fmt ctx budget rest

/-- Embedding of `_aggressive_resize_for_size`. -/
def aggressiveResize (fmt : ImgFormat) (ctx : ImgCtx) (budget : Nat) : SavedFile :=
  aggrGo fmt ctx budget scaleFactors

/-- Embedding of `_optimize_image_size`: sweep the full-size levels,
accept the first fit, otherwise escalate to aggressive resizing. -/
def optimizeImageSize (fmt : ImgFormat) (ctx : ImgCtx) (budget : Nat) : SavedFile :=
  match firstFit (ctx.size ctx.w ctx.h) budget (fullLevels fmt) with
  | some q => ⟨ctx.w, ctx.h, some q, ctx.size ctx.w ctx.h q⟩
  | none => aggressiveResize fmt ctx budget

/-- Size-limited branch of `_convert_image`: save once at default
settings; keep it when it already fits, else run the size search. -/
def convertImageSized (fmt : ImgFormat) (ctx : ImgCtx) (budget : Nat) : SavedFile :=
  if ctx.defaultSize ≤ budget then ⟨ctx.w, ctx.h, none, ctx.defaultSize⟩
  else optimizeImageSize fmt ctx budget

/-- Triples enumerated by the aggressive scale loop, in attempt order,
truncated at the first scale whose dimensions are too small. -/
def aggrSpaceGo (fmt : ImgFormat) (ctx : ImgCtx) : List (Nat × Nat) → List (Nat × Nat × Nat)
  | [] => []
  | s :: rest =>
      if (scaleDims ctx.w ctx.h s).1 < 10 ∨ (scaleDims ctx.w ctx.h s).2 < 10 then []
      else
        (aggrLevels fmt).map
            (fun q => ((scaleDims ctx.w ctx.h s).1, (scaleDims ctx.w ctx.h s).2, q))
          ++ aggrSpaceGo fmt ctx rest

/-- Every (width, height, level) combination the size search attempts, in
attempt order: the full-size sweep followed by the aggressive sweeps. -/
def searchSpace (fmt : ImgFormat) (ctx : ImgCtx) : List (Nat × Nat × Nat) :=
  (fullLevels fmt).map (fun q => (ctx.w, ctx.h, q)) ++ aggrSpaceGo fmt ctx scaleFactors

/-- Boolean guard of the aggressive loop: both scaled dimensions at least 10. -/
def dimsOk (ctx : ImgCtx) (s : Nat × Nat) : Bool :=
  !(decide ((scaleDims ctx.w ctx.h s).1 < 10)) && !(decide ((scaleDims ctx.w ctx.h s).2 < 10))

/-- The sweep rejects every level exactly when it returns nothing. -/
theorem firstFit_eq_none_iff {α : Type} (m : α → Nat) (b : Nat) (l : List α) :
    firstFit m b l = none ↔ ∀ x ∈ l, ¬ m x ≤ b := by
  induction l with
  | nil => simp [firstFit]
  | cons a t ih =>
      by_cases h : m a ≤ b
      · simp [firstFit, h]
      · simp [firstFit, h, ih]
        intro _
        omega

/-- A level accepted by the sweep was among those tried and fits the budget. -/
theorem firstFit_some_mem {α : Type} {m : α → Nat} {b : Nat} {l : List α} {x : α}
    (h : firstFit m b l = some x) : x ∈ l ∧ m x ≤ b := by
  induction l with
  | nil => simp [firstFit] at h
  | cons a t ih =>
      by_cases ha : m a ≤ b
      · simp [firstFit, ha] at h
        subst h
        exact ⟨List.mem_cons_self a t, ha⟩
      · simp [firstFit, ha] at h
        rcases ih h with ⟨hm, hle⟩
        exact ⟨List.mem_cons_of_mem a hm, hle⟩

/-- If some tried level fits the budget, the sweep accepts one. -/
theorem firstFit_isSome_of_exists {α : Type} {m : α → Nat} {b : Nat} {l : List α}
    (h : ∃ x ∈ l, m x ≤ b) : ∃ y, firstFit m b l = some y := by
  cases hf : firstFit m b l with
  | some y => exact ⟨y, rfl⟩
  | none =>
      rcases h with ⟨x, hx, hxb⟩
      exact absurd hxb ((firstFit_eq_none_iff m b l).mp hf x hx)

/-- Sweeping a concatenation is sweeping the first part, then the second. -/
theorem firstFit_append {α : Type} (m : α → Nat) (b : Nat) (l1 l2 : List α) :
    firstFit m b (l1 ++ l2)
      = match firstFit m b l1 with
        | some x => some x
        | none => firstFit m b l2 := by
  induction l1 with
  | nil => simp [firstFit]
  | cons a t ih =>
      by_cases h : m a ≤ b <;> simp [firstFit, h, ih]

/-- Sweeping a mapped list is mapping the sweep of measures through `f`. -/
theorem firstFit_map {α β : Type} (f : α → β) (m : β → Nat) (b : Nat) (l : List α) :
    firstFit m b (l.map f) = Option.map f (firstFit (fun a => m (f a)) b l) := by
  induction l with
  | nil => simp [firstFit]
  | cons a t ih =>
      by_cases h : m (f a) ≤ b <;> simp [firstFit, h, ih]

/-- On a strictly descending list the accepted level dominates every
fitting level: first fit in descending order is the best fit. -/
theorem firstFit_best {m : Nat → Nat} {b : Nat} {l : List Nat} {q : Nat}
    (hs : l.Pairwise (fun x y => y < x)) (h : firstFit m b l = some q) :
    ∀ r ∈ l, m r ≤ b → r ≤ q := by
  induction l with
  | nil => simp [firstFit] at h
  | cons a t ih =>
      rcases List.pairwise_cons.mp hs with ⟨ha, ht⟩
      by_cases hab : m a ≤ b
      · simp [firstFit, hab] at h
        subst h
        intro r hr _
        rcases List.mem_cons.mp hr with rfl | hrt
        · exact le_refl r
        · exact le_of_lt (ha r hrt)
      · simp [firstFit, hab] at h
        intro r hr hrb
        rcases List.mem_cons.mp hr with rfl | hrt
        · exact absurd hrb hab
        · exact ih ht h r hrt hrb

/-- Specialisation of `firstFit_map` to the triple-building maps used by
the attempt spaces; stated directly so rewriting is syntactic. -/
theorem firstFit_map_pair (ctx : ImgCtx) (w h b : Nat) (l : List Nat) :
    firstFit (sizeTriple ctx) b (l.map (fun q => (w, h, q)))
      = Option.map (fun q => (w, h, q)) (firstFit (ctx.size w h) b l) := by
  induction l with
  | nil => simp [firstFit]
  | cons a t ih =>
      by_cases hc : ctx.size w h a ≤ b <;> simp [firstFit, sizeTriple, hc, ih]

/-- The nested aggressive loop equals a single first-fit sweep over the
flattened attempt space, with the minimal save as the default. -/
theorem aggrGo_eq_firstFit (fmt : ImgFormat) (ctx : ImgCtx) (b : Nat)
    (scales : List (Nat × Nat)) :
    aggrGo fmt ctx b scales
      = match firstFit (sizeTriple ctx) b (aggrSpaceGo fmt ctx scales) with
        | some t => ⟨t.1, t.2.1, some t.2.2, sizeTriple ctx t⟩
        | none => minimalSave fmt ctx := by
  induction scales with
  | nil => simp [aggrGo, aggrSpaceGo, firstFit]
  | cons s rest ih =>
      by_cases hd : (scaleDims ctx.w ctx.h s).1 < 10 ∨ (scaleDims ctx.w ctx.h s).2 < 10
      · simp [aggrGo, aggrSpaceGo, hd, firstFit]
      · simp only [aggrGo, aggrSpaceGo, if_neg hd]
        rw [firstFit_append, firstFit_map_pair]
        cases hq :
            firstFit (ctx.size (scaleDims ctx.w ctx.h s).1 (scaleDims ctx.w ctx.h s).2)
              b (aggrLevels fmt) with
        | some q => simp [sizeTriple]
        | none => simp [ih]

/-- The whole size search equals a single first-fit sweep over the full
attempt space, with the minimal save as the default. -/
theorem optimizeImageSize_eq_firstFit (fmt : ImgFormat) (ctx : ImgCtx) (b : Nat) :
    optimizeImageSize fmt ctx b
      = match firstFit (sizeTriple ctx) b (searchSpace fmt ctx) with
        | some t => ⟨t.1, t.2.1, some t.2.2, sizeTriple ctx t⟩
        | none => minimalSave fmt ctx := by
  unfold optimizeImageSize searchSpace aggressiveResize
  rw [firstFit_append, firstFit_map_pair]
  cases hq : firstFit (ctx.size ctx.w ctx.h) b (fullLevels fmt) with
  | some q => simp [sizeTriple]
  | none => simp [aggrGo_eq_firstFit]

/-- The aggressive attempt space is exactly the sweeps of the scales up to
(and excluding) the first scale that makes a dimension drop below 10. -/
theorem aggrSpaceGo_eq_takeWhile (fmt : ImgFormat) (ctx : ImgCtx)
    (scales : List (Nat × Nat)) :
    aggrSpaceGo fmt ctx scales
      = (scales.takeWhile (dimsOk ctx)).flatMap
          (fun s => (aggrLevels fmt).map
            (fun q => ((scaleDims ctx.w ctx.h s).1, (scaleDims ctx.w ctx.h s).2, q))) := by
  induction scales with
  | nil => simp [aggrSpaceGo]
  | cons s rest ih =>
      by_cases hd : (scaleDims ctx.w ctx.h s).1 < 10 ∨ (scaleDims ctx.w ctx.h s).2 < 10
      · have hb : dimsOk ctx s = false := by
          unfold dimsOk
          rcases hd with h | h <;> simp [h]
        simp [aggrSpaceGo, hd, List.takeWhile, hb]
      · have h1 : ¬ (scaleDims ctx.w ctx.h s).1 < 10 := fun h => hd (Or.inl h)
        have h2 : ¬ (scaleDims ctx.w ctx.h s).2 < 10 := fun h => hd (Or.inr h)
        have hb : dimsOk ctx s = true := by
          unfold dimsOk
          simp [h1, h2]
        simp [aggrSpaceGo, hd, List.takeWhile, hb, ih]

/-- Context of a 100 by 100 image whose encoded size is width plus level;
only deep in the aggressive phase does any attempt fit a budget of 50. -/
def wCtx1 : ImgCtx :=
  ⟨100, 100, fun w _ q => w + q, 99999⟩

/-- Context of a 100 by 100 image whose encoded size is ten times the
level, so the full-size sweep accepts quality 90 under a budget of 900. -/
def wCtx2 : ImgCtx :=
  ⟨100, 100, fun _ _ q => 10 * q, 99999⟩

/-- C1: for budget b, whenever some (level, scale) combination in the
search space fits, the size search writes an output of size at most b;
when none fits it still writes the most degraded save (JPG quality 5 or
PNG compression 9) instead of failing, and the size-limited image path
always produces an output file. -/
theorem c1_size_search_best_effort (fmt : ImgFormat) (ctx : ImgCtx) (b : Nat) :
    ((∃ t ∈ searchSpace fmt ctx, sizeTriple ctx t ≤ b) →
      (optimizeImageSize fmt ctx b).bytes ≤ b) ∧
    ((¬ ∃ t ∈ searchSpace fmt ctx, sizeTriple ctx t ≤ b) →
      optimizeImageSize fmt ctx b = minimalSave fmt ctx) ∧
    (ctx.defaultSize ≤ b → convertImageSized fmt ctx b = ⟨ctx.w, ctx.h, none, ctx.defaultSize⟩) ∧
    (¬ ctx.defaultSize ≤ b → convertImageSized fmt ctx b = optimizeImageSize fmt ctx b) := by
  refine ⟨?_, ?_, ?_, ?_⟩
  · intro h
    rcases firstFit_isSome_of_exists h with ⟨t, ht⟩
    rw [optimizeImageSize_eq_firstFit, ht]
    simpa using (firstFit_some_mem ht).2
  · intro h
    have hn : firstFit (sizeTriple ctx) b (searchSpace fmt ctx) = none := by
      rw [firstFit_eq_none_iff]
      intro x hx hxb
      exact h ⟨x, hx, hxb⟩
    rw [optimizeImageSize_eq_firstFit, hn]
  · intro h
    simp [convertImageSized, h]
  · intro h
    simp [convertImageSized, h]

/-- Witness for C1 at a concrete context: a fit exists in the search space
and the search output meets the budget. -/
theorem c1_witness :
    (∃ t ∈ searchSpace ImgFormat.jpeg wCtx1, sizeTriple wCtx1 t ≤ 50) ∧
    (optimizeImageSize ImgFormat.jpeg wCtx1 50).bytes ≤ 50 :=
  ⟨by decide, (c1_size_search_best_effort ImgFormat.jpeg wCtx1 50).1 (by decide)⟩

/-- C2 counterexample: the full-size JPG sweep is `range(95, 4, -5)`, so
it tries quality 5, below the claimed lower endpoint 10, and a size oracle
fitting only at quality 5 makes the sweep accept level 5. -/
theorem c2_counterexample :
    5 ∈ fullLevels ImgFormat.jpeg ∧ (5 : Nat) < 10 ∧
    firstFit (fun q => if q ≤ 5 then 0 else 101) 100 (fullLevels ImgFormat.jpeg)
      = some 5 := by
  decide

/-- C2 (amended): the full-size search tries JPG qualities 95 down to 5 in
steps of -5 and PNG compression levels 9 down to 0 in steps of -1, in
strict descending order, accepting the first level that fits; the accepted
level is the highest tried level that satisfies the budget, and the search
result is written as the output. -/
theorem c2_full_sweep_first_fit (fmt : ImgFormat) (ctx : ImgCtx) (b q : Nat) :
    fullLevels ImgFormat.jpeg
      = [95, 90, 85, 80, 75, 70, 65, 60, 55, 50, 45, 40, 35, 30, 25, 20, 15, 10, 5] ∧
    fullLevels ImgFormat.png = [9, 8, 7, 6, 5, 4, 3, 2, 1, 0] ∧
    (firstFit (ctx.size ctx.w ctx.h) b (fullLevels fmt) = some q →
      q ∈ fullLevels fmt ∧ ctx.size ctx.w ctx.h q ≤ b ∧
      (∀ r ∈ fullLevels fmt, ctx.size ctx.w ctx.h r ≤ b → r ≤ q) ∧
      optimizeImageSize fmt ctx b = ⟨ctx.w, ctx.h, some q, ctx.size ctx.w ctx.h q⟩) := by
  refine ⟨by decide, by decide, ?_⟩
  intro h
  have hmem := firstFit_some_mem h
  have hsorted : (fullLevels fmt).Pairwise (fun x y => y < x) := by
    cases fmt <;> decide
  refine ⟨hmem.1, hmem.2, firstFit_best hsorted h, ?_⟩
  unfold optimizeImageSize
  rw [h]

/-- Witness for C2 at a concrete context: the sweep accepts quality 90
under budget 900 and the search writes that result. -/
theorem c2_witness :
    optimizeImageSize ImgFormat.jpeg wCtx2 900 = ⟨100, 100, some 90, 900⟩ :=
  ((c2_full_sweep_first_fit ImgFormat.jpeg wCtx2 900 90).2.2 (by decide)).2.2.2

/-- C8 counterexample: the aggressive JPG sweep is `range(85, 4, -10)`, so
it tries quality 5, below the claimed lower endpoint 10, and a size oracle
fitting only at quality 5 makes the sweep accept level 5. -/
theorem c8_counterexample :
    5 ∈ aggrLevels ImgFormat.jpeg ∧ (5 : Nat) < 10 ∧
    firstFit (fun q => if q ≤ 5 then 0 else 101) 100 (aggrLevels ImgFormat.jpeg)
      = some 5 := by
  decide

/-- C8 (amended): the aggressive phase iterates scale factors 0.5, 0.3,
0.2, 0.1, 0.05 over the current dimensions, stops at the first scale where
either dimension drops below 10, sweeps JPG quality 85 down to 5 in steps
of -10 (or PNG compression 9 down to 1 in steps of -2) at each scale, and
accepts the first encoding that fits the budget, falling back to the most
degraded full-size save when nothing fits. -/
theorem c8_aggressive_phase (fmt : ImgFormat) (ctx : ImgCtx) (b : Nat) :
    scaleFactors = [(1, 2), (3, 10), (1, 5), (1, 10), (1, 20)] ∧
    aggrLevels ImgFormat.jpeg = [85, 75, 65, 55, 45, 35, 25, 15, 5] ∧
    aggrLevels ImgFormat.png = [9, 7, 5, 3, 1] ∧
    aggrSpaceGo fmt ctx scaleFactors
      = (scaleFactors.takeWhile (dimsOk ctx)).flatMap
          (fun s => (aggrLevels fmt).map
            (fun q => ((scaleDims ctx.w ctx.h s).1, (scaleDims ctx.w ctx.h s).2, q))) ∧
    aggressiveResize fmt ctx b
      = match firstFit (sizeTriple ctx) b (aggrSpaceGo fmt ctx scaleFactors) with
        | some t => ⟨t.1, t.2.1, some t.2.2, sizeTriple ctx t⟩
        | none => minimalSave fmt ctx :=
  ⟨rfl, by decide, by decide, aggrSpaceGo_eq_takeWhile fmt ctx scaleFactors,
    aggrGo_eq_firstFit fmt ctx b scaleFactors⟩

/-- Check whether the first list is an initial segment of the second. -/
def leadsWith : List Char → List Char → Bool
  | [], _ => true
  | _ :: _, [] => false
  | a :: as, b :: bs => a == b && leadsWith as bs

/-- Check whether the first list occurs contiguously inside the second. -/
def occursIn (needle : List Char) : List Char → Bool
  | [] => needle.isEmpty
  | c :: rest => leadsWith needle (c :: rest) || occursIn needle rest

/-- Python's substring test `needle in hay` over strings. -/
def strContains (hay needle : String) : Bool :=
  occursIn needle.data hay.data

/-- Hardware encoder identifier scanned first by `_detect_hardware_acceleration`. -/
def nvencId : String := "h264_nvenc"

/-- Hardware encoder identifier scanned second. -/
def qsvId : String := "h264_qsv"

/-- Hardware encoder identifier scanned third. -/
def vaapiId : String := "h264_vaapi"

/-- Device path attached to the VAAPI capability descriptor. -/
def vaapiDevicePath : String := "/dev/dri/renderD128"

/-- Kinds of acceleration in the capability descriptor dict. -/
inductive HwType
  | nvenc
  | qsv
  | vaapi
  | software
deriving DecidableEq

/-- Capability descriptor returned by `_detect_hardware_acceleration`:
the fields of the Python dict {type, available, device}. -/
structure HwAccel where
  hwType : HwType
  available : Bool
  device : Option String
deriving DecidableEq

/-- Descriptor for the no-acceleration case. -/
def softwareAccel : HwAccel :=
  ⟨HwType.software, false, none⟩

/-- Embedding of `_detect_hardware_acceleration`.  The probe outcome is
`some stdout` for a completed `ffmpeg -encoders` run and `none` for any
raised failure (missing binary, 10-second timeout, unreadable output);
a non-zero exit with readable output is a completed run, since the probe
does not check the exit status. -/
def detectHardwareAcceleration (probeOut : Option String) : HwAccel :=
  match probeOut with
  | none => softwareAccel
  | some out =>
      if strContains out nvencId then ⟨HwType.nvenc, true, none⟩
      else if strContains out qsvId then ⟨HwType.qsv, true, none⟩
      else if strContains out vaapiId then ⟨HwType.vaapi, true, some vaapiDevicePath⟩
      else softwareAccel

/-- Settings dict built by `_get_optimized_video_settings`: codecs plus
the video_args, audio_args and global_args entries. -/
structure VideoSettings where
  vcodec : String
  acodec : String
  vf : Option String
  preset : String
  crf : String
  tune : Option String
  vaapiDevice : Option String
  ar : String
  ab : String
  threads : String
deriving DecidableEq

/-- Quality key for the 480p tier. -/
def q480 : String := "480p"

/-- Quality key for the 720p tier. -/
def q720 : String := "720p"

/-- Quality key for the 1080p tier. -/
def q1080 : String := "1080p"

/-- Quality key for the original-resolution tier. -/
def qOriginal : String := "original"

/-- Scale filter of the 480p tier. -/
def scale480 : String := "scale=854:480"

/-- Scale filter of the 720p tier. -/
def scale720 : String := "scale=1280:720"

/-- Scale filter of the 1080p tier. -/
def scale1080 : String := "scale=1920:1080"

/-- Software video codec of every tier. -/
def cLibx264 : String := "libx264"

/-- Audio codec of every tier. -/
def cAac : String := "aac"

/-- Preset used in fast mode, and by the fallback conversion. -/
def cUltrafast : String := "ultrafast"

/-- Preset used outside fast mode, and forced by NVENC and QSV overrides. -/
def cFast : String := "fast"

/-- Tune value forced by the NVENC override. -/
def cHq : String := "hq"

/-- CRF for fixed resolutions in fast mode. -/
def c30 : String := "30"

/-- CRF for fixed resolutions outside fast mode, and for the fallback. -/
def c28 : String := "28"

/-- CRF for the original tier in fast mode. -/
def c25 : String := "25"

/-- CRF for the original tier outside fast mode. -/
def c23 : String := "23"

/-- Audio sample rate of every tier. -/
def ar44100 : String := "44100"

/-- Audio bitrate of the 480p and 720p tiers. -/
def ab128k : String := "128k"

/-- Audio bitrate of the 1080p and original tiers. -/
def ab192k : String := "192k"

/-- Thread-count global argument of every tier. -/
def threads0 : String := "0"

/-- Settings of the 480p entry of the table. -/
def settings480 (fastMode : Bool) : VideoSettings :=
  { vcodec := cLibx264, acodec := cAac, vf := some scale480,
    preset := if fastMode then cUltrafast else cFast,
    crf := if fastMode then c30 else c28,
    tune := none, vaapiDevice := none,
    ar := ar44100, ab := ab128k, threads := threads0 }

/-- Settings of the 720p entry of the table. -/
def settings720 (fastMode : Bool) : VideoSettings :=
  { vcodec := cLibx264, acodec := cAac, vf := some scale720,
    preset := if fastMode then cUltrafast else cFast,
    crf := if fastMode then c30 else c28,
    tune := none, vaapiDevice := none,
    ar := ar44100, ab := ab128k, threads := threads0 }

/-- Settings of the 1080p entry of the table. -/
def settings1080 (fastMode : Bool) : VideoSettings :=
  { vcodec := cLibx264, acodec := cAac, vf := some scale1080,
    preset := if fastMode then cUltrafast else cFast,
    crf := if fastMode then c30 else c28,
    tune := none, vaapiDevice := none,
    ar := ar44100, ab := ab192k, threads := threads0 }

/-- Settings of the original entry of the table: no scale filter and its
own CRF pair. -/
def settingsOriginal (fastMode : Bool) : VideoSettings :=
  { vcodec := cLibx264, acodec := cAac, vf := none,
    preset := if fastMode then cUltrafast else cFast,
    crf := if fastMode then c25 else c23,
    tune := none, vaapiDevice := none,
    ar := ar44100, ab := ab192k, threads := threads0 }

/-- Lookup `settings.get(quality, settings['original'])` over the
four-entry table. -/
def baseVideoSettings (quality : String) (fastMode : Bool) : VideoSettings :=
  if quality = q480 then settings480 fastMode
  else if quality = q720 then settings720 fastMode
  else if quality = q1080 then settings1080 fastMode
  else settingsOriginal fastMode

/-- Hardware-acceleration override applied to every table entry: NVENC and
QSV swap the video codec and force the fast preset (NVENC also tunes for
quality); VAAPI swaps the codec and attaches the device path; the software
descriptor matches no branch and leaves the entry unchanged. -/
def applyHw (hw : HwAccel) (s : VideoSettings) : VideoSettings :=
  match hw.hwType with
  | HwType.nvenc => { s with vcodec := nvencId, preset := cFast, tune := some cHq }
  | HwType.qsv => { s with vcodec := qsvId, preset := cFast }
  | HwType.vaapi => { s with vcodec := vaapiId, vaapiDevice := hw.device }
  | HwType.software => s

/-- Mutable service state observed across calls: how many times the
encoder-probe subprocess has been launched. -/
structure ServiceState where
  probeCount : Nat
deriving DecidableEq

/-- Embedding of `_get_optimized_video_settings`: re-detect hardware
acceleration (there is no cache in the source, so the probe count always
advances), build the table, apply the override, and look up the quality. -/
def getOptimizedVideoSettings (probeOut : Option String) (quality : String)
    (fastMode : Bool) (st : ServiceState) : VideoSettings × ServiceState :=
  (applyHw (detectHardwareAcceleration probeOut) (baseVideoSettings quality fastMode),
    ⟨st.probeCount + 1⟩)

/-- Arguments of one `ffmpeg.output(...)` invocation in the video path:
codecs, optional scale filter, preset, CRF, and optional audio arguments
(the fallback invocation passes no audio or thread arguments). -/
structure EncodePlan where
  vcodec : String
  acodec : String
  vf : Option String
  preset : String
  crf : String
  ar : Option String
  ab : Option String
deriving DecidableEq

/-- Plan of the primary invocation, assembled from the derived settings. -/
def planOfSettings (s : VideoSettings) : EncodePlan :=
  ⟨s.vcodec, s.acodec, s.vf, s.preset, s.crf, some s.ar, some s.ab⟩

/-- Plan hard-coded in `_fallback_video_conversion`: software codec pair,
ultrafast preset, CRF 28, no scaling, no audio arguments. -/
def fallbackPlan : EncodePlan :=
  ⟨cLibx264, cAac, none, cUltrafast, c28, none, none⟩

/-- Observable outcome of one `_convert_video` call: the returned flag,
the progress percentages emitted to the callback in order, and the engine
invocations attempted in order. -/
structure VideoRunLog where
  success : Bool
  progress : List Nat
  runs : List EncodePlan
deriving DecidableEq

/-- Embedding of `_convert_video`.  `primaryOk` and `fallbackOk` are the
outcomes of the two possible engine invocations; `hasCb` records whether a
progress callback was supplied.  On primary success the callback receives
a single 100; on primary failure the fallback runs exactly once and its
own failure is caught by the outer handler, which returns failure. -/
def convertVideo (probeOut : Option String) (quality : String) (fastMode : Bool)
    (primaryOk fallbackOk hasCb : Bool) (st : ServiceState) :
    VideoRunLog × ServiceState :=
  match getOptimizedVideoSettings probeOut quality fastMode st with
  | (s, st2) =>
      if primaryOk then
        (⟨true, if hasCb then [100] else [], [planOfSettings s]⟩, st2)
      else if fallbackOk then
        (⟨true, [], [planOfSettings s, fallbackPlan]⟩, st2)
      else
        (⟨false, [], [planOfSettings s, fallbackPlan]⟩, st2)

/-- Embedding of `_convert_audio`: one engine invocation whose outcome is
returned as the flag; the progress callback is never invoked, so the
emitted sequence is empty on every path. -/
def convertAudio (runOk : Bool) : Bool × List Nat :=
  (runOk, [])

/-- File kinds from models/file_info.py (FileType). -/
inductive FileType
  | image
  | audio
  | video
  | unsupported
deriving DecidableEq

/-- Embedding of `convert_file`: dispatch on the file kind.  A handler
models the three per-kind converters, which may raise (`Except.error`);
the surrounding handler of `convert_file` turns any raised exception into
a `false` return.  The returned list records which converters ran. -/
def convertFile (ft : FileType) (handler : FileType → Except String Bool) :
    Bool × List FileType :=
  match ft with
  | FileType.unsupported => (false, [])
  | t =>
      match handler t with
      | Except.ok b => (b, [t])
      | Except.error _ => (false, [t])

/-- C3: when the primary engine invocation fails, exactly one fallback
invocation follows, using the fixed conservative plan (libx264/aac,
ultrafast, CRF 28, no scaling, no hardware codec); a fallback failure
makes the conversion return failure, and no run ever makes more than one
fallback attempt. -/
theorem c3_single_fallback (probeOut : Option String) (quality : String)
    (fastMode fallbackOk hasCb : Bool) (st : ServiceState) :
    (convertVideo probeOut quality fastMode false fallbackOk hasCb st).1.runs
      = [planOfSettings (getOptimizedVideoSettings probeOut quality fastMode st).1,
          fallbackPlan] ∧
    fallbackPlan = ⟨cLibx264, cAac, none, cUltrafast, c28, none, none⟩ ∧
    (convertVideo probeOut quality fastMode false false hasCb st).1.success = false ∧
    ∀ primaryOk fb2 : Bool,
      ((convertVideo probeOut quality fastMode primaryOk fb2 hasCb st).1.runs).length
        = if primaryOk then 1 else 2 := by
  refine ⟨?_, rfl, rfl, ?_⟩
  · cases fallbackOk <;> rfl
  · intro primaryOk fb2
    cases primaryOk <;> cases fb2 <;> rfl

/-- C4 counterexample: an audio conversion returns success yet emits no
progress values at all, and a video conversion that succeeds through the
fallback also emits none — neither sequence ends with a 100. -/
theorem c4_counterexample :
    (convertAudio true).1 = true ∧ (convertAudio true).2 = [] ∧
    (convertVideo none qOriginal true false true true ⟨0⟩).1.success = true ∧
    (convertVideo none qOriginal true false true true ⟨0⟩).1.progress = [] :=
  ⟨rfl, rfl, rfl, rfl⟩

/-- C4 (amended): a video conversion succeeding on the primary invocation
with a callback emits exactly one final 100; without a callback it emits
nothing; a video conversion succeeding only through the fallback and every
audio conversion emit no progress values at all. -/
theorem c4_progress_emissions (probeOut : Option String) (quality : String)
    (fastMode fallbackOk runOk : Bool) (st : ServiceState) :
    (convertVideo probeOut quality fastMode true fallbackOk true st).1.progress = [100] ∧
    (convertVideo probeOut quality fastMode true fallbackOk false st).1.progress = [] ∧
    (convertVideo probeOut quality fastMode false true true st).1.progress = [] ∧
    (convertAudio runOk).1 = runOk ∧ (convertAudio runOk).2 = [] :=
  ⟨rfl, rfl, rfl, rfl, rfl⟩

/-- C5 counterexample: two conversions starting from a fresh service state
launch the encoder probe twice — the second conversion re-probes instead
of reusing a cached descriptor. -/
theorem c5_counterexample :
    ((convertVideo none q720 true true true false
        ((convertVideo none q480 true true true false ⟨0⟩).2)).2).probeCount = 2 ∧
    ¬ ((convertVideo none q720 true true true false
        ((convertVideo none q480 true true true false ⟨0⟩).2)).2).probeCount = 1 :=
  ⟨rfl, by decide⟩

/-- C5 (amended): hardware-capability detection is invoked on every call
of the video settings derivation — each settings computation and each
video conversion advances the probe count by exactly one; nothing is
memoized. -/
theorem c5_probe_per_call (probeOut : Option String) (quality : String)
    (fastMode primaryOk fallbackOk hasCb : Bool) (st : ServiceState) :
    (getOptimizedVideoSettings probeOut quality fastMode st).2.probeCount
      = st.probeCount + 1 ∧
    (convertVideo probeOut quality fastMode primaryOk fallbackOk hasCb st).2.probeCount
      = st.probeCount + 1 := by
  refine ⟨rfl, ?_⟩
  cases primaryOk <;> cases fallbackOk <;> rfl

/-- C6: convert_file dispatches on the file kind; an unsupported kind
fails immediately with no converter invoked, a converter exception is
translated into a false return, and a converter result is passed through —
the dispatcher itself never raises. -/
theorem c6_dispatch_normalizes_failures (handler : FileType → Except String Bool)
    (ft : FileType) (e : String) (b : Bool) :
    convertFile FileType.unsupported handler = (false, []) ∧
    (handler ft = Except.error e → ft ≠ FileType.unsupported →
      convertFile ft handler = (false, [ft])) ∧
    (handler ft = Except.ok b → ft ≠ FileType.unsupported →
      convertFile ft handler = (b, [ft])) := by
  refine ⟨rfl, ?_, ?_⟩
  · intro h hne
    cases ft with
    | unsupported => exact absurd rfl hne
    | image => simp [convertFile, h]
    | audio => simp [convertFile, h]
    | video => simp [convertFile, h]
  · intro h hne
    cases ft with
    | unsupported => exact absurd rfl hne
    | image => simp [convertFile, h]
    | audio => simp [convertFile, h]
    | video => simp [convertFile, h]

/-- Message used by the C6 witness handler. -/
def werr : String := "boom"

/-- Witness for C6: an unsupported file fails with no converter run, a
throwing image converter is normalized to false, and a succeeding video
converter's flag is passed through. -/
theorem c6_witness :
    convertFile FileType.unsupported (fun _ => Except.error werr) = (false, []) ∧
    convertFile FileType.image (fun _ => Except.error werr)
      = (false, [FileType.image]) ∧
    convertFile FileType.video (fun _ => Except.ok true)
      = (true, [FileType.video]) :=
  ⟨(c6_dispatch_normalizes_failures (fun _ => Except.error werr)
      FileType.image werr true).1,
    (c6_dispatch_normalizes_failures (fun _ => Except.error werr)
      FileType.image werr true).2.1 rfl (by decide),
    (c6_dispatch_normalizes_failures (fun _ => Except.ok true)
      FileType.video werr true).2.2 rfl (by decide)⟩

/-- C7: with no hardware acceleration detected, the derived plan matches
the specified table.  The first four conjuncts are the 720p fast-mode
scenario; the rest cover every tier and both fast-mode values. -/
theorem c7_video_plan_table (probeOut : Option String) (fastMode : Bool)
    (st : ServiceState)
    (hsw : detectHardwareAcceleration probeOut = softwareAccel) :
    (getOptimizedVideoSettings probeOut q720 true st).1.vf = some scale720 ∧
    (getOptimizedVideoSettings probeOut q720 true st).1.preset = cUltrafast ∧
    (getOptimizedVideoSettings probeOut q720 true st).1.crf = c30 ∧
    (getOptimizedVideoSettings probeOut q720 true st).1.ab = ab128k ∧
    (getOptimizedVideoSettings probeOut q480 fastMode st).1.vf = some scale480 ∧
    (getOptimizedVideoSettings probeOut q1080 fastMode st).1.vf = some scale1080 ∧
    (getOptimizedVideoSettings probeOut qOriginal fastMode st).1.vf = none ∧
    (getOptimizedVideoSettings probeOut q480 fastMode st).1.crf
      = (if fastMode then c30 else c28) ∧
    (getOptimizedVideoSettings probeOut q720 fastMode st).1.crf
      = (if fastMode then c30 else c28) ∧
    (getOptimizedVideoSettings probeOut q1080 fastMode st).1.crf
      = (if fastMode then c30 else c28) ∧
    (getOptimizedVideoSettings probeOut qOriginal fastMode st).1.crf
      = (if fastMode then c25 else c23) ∧
    (fastMode = true →
      (getOptimizedVideoSettings probeOut q480 fastMode st).1.preset = cUltrafast ∧
      (getOptimizedVideoSettings probeOut q720 fastMode st).1.preset = cUltrafast ∧
      (getOptimizedVideoSettings probeOut q1080 fastMode st).1.preset = cUltrafast ∧
      (getOptimizedVideoSettings probeOut qOriginal fastMode st).1.preset = cUltrafast) ∧
    (getOptimizedVideoSettings probeOut q480 fastMode st).1.ar = ar44100 ∧
    (getOptimizedVideoSettings probeOut q720 fastMode st).1.ar = ar44100 ∧
    (getOptimizedVideoSettings probeOut q1080 fastMode st).1.ar = ar44100 ∧
    (getOptimizedVideoSettings probeOut qOriginal fastMode st).1.ar = ar44100 ∧
    (getOptimizedVideoSettings probeOut q480 fastMode st).1.ab = ab128k ∧
    (getOptimizedVideoSettings probeOut q720 fastMode st).1.ab = ab128k ∧
    (getOptimizedVideoSettings probeOut q1080 fastMode st).1.ab = ab192k ∧
    (getOptimizedVideoSettings probeOut qOriginal fastMode st).1.ab = ab192k := by
  have hgo : ∀ q fm, (getOptimizedVideoSettings probeOut q fm st).1
      = baseVideoSettings q fm := by
    intro q fm
    unfold getOptimizedVideoSettings
    rw [hsw]
    rfl
  simp only [hgo]
  cases fastMode <;> refine ⟨?_, ?_, ?_, ?_, ?_, ?_, ?_, ?_, ?_, ?_, ?_, ?_, ?_,
    ?_, ?_, ?_, ?_, ?_, ?_, ?_⟩ <;> first
    | rfl
    | (intro h; exact absurd h (by decide))
    | (intro h; exact ⟨rfl, rfl, rfl, rfl⟩)

/-- Witness for C7 at a failed probe: the 720p fast-mode scenario plan. -/
theorem c7_witness :
    (getOptimizedVideoSettings none q720 true ⟨0⟩).1.vf = some scale720 ∧
    (getOptimizedVideoSettings none q720 true ⟨0⟩).1.preset = cUltrafast ∧
    (getOptimizedVideoSettings none q720 true ⟨0⟩).1.crf = c30 ∧
    (getOptimizedVideoSettings none q720 true ⟨0⟩).1.ab = ab128k := by
  have h := c7_video_plan_table none true ⟨0⟩ rfl
  exact ⟨h.1, h.2.1, h.2.2.1, h.2.2.2.1⟩

/-- C9: the probe scans for NVENC, then QSV, then VAAPI, with the first
match winning, and every failed or matchless probe yields the software
descriptor rather than an error. -/
theorem c9_capability_detection (out : String) :
    detectHardwareAcceleration none = softwareAccel ∧
    (strContains out nvencId = true →
      detectHardwareAcceleration (some out) = ⟨HwType.nvenc, true, none⟩) ∧
    (strContains out nvencId = false → strContains out qsvId = true →
      detectHardwareAcceleration (some out) = ⟨HwType.qsv, true, none⟩) ∧
    (strContains out nvencId = false → strContains out qsvId = false →
      strContains out vaapiId = true →
      detectHardwareAcceleration (some out)
        = ⟨HwType.vaapi, true, some vaapiDevicePath⟩) ∧
    (strContains out nvencId = false → strContains out qsvId = false →
      strContains out vaapiId = false →
      detectHardwareAcceleration (some out) = softwareAccel) := by
  refine ⟨rfl, ?_, ?_, ?_, ?_⟩
  · intro h1
    simp [detectHardwareAcceleration, h1]
  · intro h1 h2
    simp [detectHardwareAcceleration, h1, h2]
  · intro h1 h2 h3
    simp [detectHardwareAcceleration, h1, h2, h3]
  · intro h1 h2 h3
    simp [detectHardwareAcceleration, h1, h2, h3, softwareAccel]

/-- Encoder listing used by the C9 witness: QSV and VAAPI are present but
NVENC is not, so the QSV branch wins by priority. -/
def wProbeOut : String := "encoders: h264_qsv h264_vaapi"

/-- Witness for C9: on the concrete listing the detector picks QSV. -/
theorem c9_witness :
    detectHardwareAcceleration (some wProbeOut) = ⟨HwType.qsv, true, none⟩ :=
  (c9_capability_detection wProbeOut).2.2.1 (by decide) (by decide)

/-- C10: a quality string outside the four known presets degrades to the
original-tier settings instead of failing: the derived plan equals the
original-quality plan, and (without hardware acceleration) has no scale
filter, the original CRF tier and 192k audio bitrate. -/
theorem c10_unknown_quality_degrades (quality : String) (fastMode : Bool)
    (probeOut : Option String) (st : ServiceState)
    (h1 : quality ≠ q480) (h2 : quality ≠ q720) (h3 : quality ≠ q1080)
    (_h4 : quality ≠ qOriginal) :
    (getOptimizedVideoSettings probeOut quality fastMode st).1
      = (getOptimizedVideoSettings probeOut qOriginal fastMode st).1 ∧
    baseVideoSettings quality fastMode = settingsOriginal fastMode ∧
    (detectHardwareAcceleration probeOut = softwareAccel →
      (getOptimizedVideoSettings probeOut quality fastMode st).1.vf = none ∧
      (getOptimizedVideoSettings probeOut quality fastMode st).1.ab = ab192k ∧
      (getOptimizedVideoSettings probeOut quality fastMode st).1.crf
        = (if fastMode then c25 else c23)) := by
  have hb : baseVideoSettings quality fastMode = settingsOriginal fastMode := by
    unfold baseVideoSettings
    rw [if_neg h1, if_neg h2, if_neg h3]
  have hbo : baseVideoSettings qOriginal fastMode = settingsOriginal fastMode := by
    unfold baseVideoSettings
    rw [if_neg (by decide), if_neg (by decide), if_neg (by decide)]
  refine ⟨?_, hb, ?_⟩
  · unfold getOptimizedVideoSettings
    rw [hb, hbo]
  · intro hsw
    unfold getOptimizedVideoSettings
    rw [hsw, hb]
    exact ⟨rfl, rfl, rfl⟩

/-- Witness for C10 at the out-of-range quality string "h264_nvenc". -/
theorem c10_witness :
    (getOptimizedVideoSettings none nvencId true ⟨0⟩).1
      = (getOptimizedVideoSettings none qOriginal true ⟨0⟩).1 :=
  (c10_unknown_quality_degrades nvencId true none ⟨0⟩
    (by decide) (by decide) (by decide) (by decide)).1
